/-
Verification of the arcaflow-expressions library: a shallow embedding of the
tokenizer classification, the recursive-descent parser, the AST printable
form, the evaluator, the path model, and the dependency/type resolver,
together with theorems settling the documented behavioural claims.

Modelling conventions:
  * Go `int64` and `int` are modelled as `Int` (the platform is 64-bit, so
    the `int64`/`int` round-trip check in the source can never fail).
  * Go `float64` is modelled as `Rat` with exact arithmetic.  No claim
    below depends on rounding, infinities or NaN, so this deviation is
    unexercised; it is recorded here once and for all.
  * Go `panic` is modelled as a dedicated result constructor, distinct
    from an ordinary returned `error`.
  * Go maps used as sets or string-keyed dictionaries are modelled as
    association lists; iteration order is only relied on where the source
    relies on insertion-ordered auxiliary slices.
-/
import Mathlib

namespace ArcaExpr

/-- Result of running a piece of Go code: a normal value, a returned
`error`, or a `panic`.  The error type is a parameter because the parser
returns structured grammar errors while the evaluator and resolver return
plain message strings. -/
inductive GoRes (ε : Type) (α : Type) where
  | ok (val : α)
  | err (e : ε)
  | panic (msg : String)
deriving Repr, DecidableEq

namespace GoRes

def bind {ε α β : Type} : GoRes ε α → (α → GoRes ε β) → GoRes ε β
  | .ok v, f => f v
  | .err e, _ => .err e
  | .panic m, _ => .panic m

def isOk {ε α : Type} : GoRes ε α → Bool
  | .ok _ => true
  | _ => false

instance {ε : Type} : Monad (GoRes ε) where
  pure := GoRes.ok
  bind := GoRes.bind

end GoRes

/-! ## Tokenizer (internal/ast/tokenizer.go)

The Go tokenizer segments the input with `text/scanner` and then classifies
each token text by the first matching pattern of `tokenPatterns`.  We embed
the classification step exactly; the claims below never depend on the
segmentation itself, only on which class a given token text receives, so
parser-level theorems work over already-classified token streams. -/

/-- TokenID names a type of token, mirroring the `TokenID` string constants. -/
inductive TokenID where
  | identifierToken
  | stringLiteralToken
  | rawStringLiteralToken
  | intLiteralToken
  | floatLiteralToken
  | booleanLiteralToken
  | bracketAccessDelimiterStartToken
  | bracketAccessDelimiterEndToken
  | parenthesesStartToken
  | parenthesesEndToken
  | dotObjectAccessToken
  | rootAccessToken
  | currentObjectAccessToken
  | equalsToken
  | selectorToken
  | filterToken
  | negationToken
  | asteriskToken
  | listSeparatorToken
  | divideToken
  | greaterThanToken
  | lessThanToken
  | plusToken
  | notToken
  | powerToken
  | modulusToken
  | andToken
  | orToken
  | unknownToken
deriving Repr, DecidableEq

/-- The Go regexp word character class `\w` (ASCII only). -/
def goWordChar (c : Char) : Bool :=
  (c ≥ 'a' && c ≤ 'z') || (c ≥ 'A' && c ≤ 'Z') || (c ≥ '0' && c ≤ '9') || c = '_'

def goDigit (c : Char) : Bool := c ≥ '0' && c ≤ '9'

/-- Pattern `^(?:true|false)$`. -/
def matchBoolean (v : String) : Bool := v = "true" || v = "false"

/-- Pattern `^\d+\.\d*(?:[eE][+-]?\d+)?$`: one or more digits, a dot, any
number of digits and an optional exponent. -/
def matchFloat (v : String) : Bool :=
  let l := v.toList
  let d1 := l.takeWhile goDigit
  let r1 := l.dropWhile goDigit
  if d1.isEmpty then false else
  match r1 with
  | '.' :: r2 =>
    let r3 := r2.dropWhile goDigit
    match r3 with
    | [] => true
    | e :: r4 =>
      if e = 'e' || e = 'E' then
        let r5 := match r4 with
          | s :: r5' => if s = '+' || s = '-' then r5' else r4
          | [] => r4
        !r5.isEmpty && (r5.dropWhile goDigit).isEmpty
      else false
  | _ => false

/-- Pattern `^(?:0|[1-9]\d*)$`: numbers with a leading zero followed by more
digits are not integer literals (the source makes them identifiers). -/
def matchInt (v : String) : Bool :=
  match v.toList with
  | [] => false
  | ['0'] => true
  | c :: rest => (c ≥ '1' && c ≤ '9') && (rest.dropWhile goDigit).isEmpty

/-- Pattern `^\w+$`. -/
def matchIdentifier (v : String) : Bool :=
  let l := v.toList
  !l.isEmpty && l.all goWordChar

/-- Whether a Go regexp `.` matches the character (anything but newline). -/
def goDotChar (c : Char) : Bool := c ≠ '\n'

/-- Pattern `^(?:".*"|'.*')$`: a double- or single-quoted string. -/
def matchStringLit (v : String) : Bool :=
  let l := v.toList
  match l with
  | c :: rest =>
    (c = '"' || c = '\'') && !rest.isEmpty && rest.getLast? = some c &&
      (rest.dropLast.all goDotChar)
  | [] => false

/-- Pattern for raw strings: a backtick-delimited token. -/
def matchRawStringLit (v : String) : Bool :=
  let l := v.toList
  match l with
  | c :: rest =>
    c = '\x60' && !rest.isEmpty && rest.getLast? = some c &&
      (rest.dropLast.all goDotChar)
  | [] => false

/-- The classification table `tokenPatterns`, in source order: the first
matching pattern wins. -/
def tokenPatterns : List (TokenID × (String → Bool)) :=
  [ (.booleanLiteralToken, matchBoolean),
    (.floatLiteralToken, matchFloat),
    (.intLiteralToken, matchInt),
    (.identifierToken, matchIdentifier),
    (.stringLiteralToken, matchStringLit),
    (.rawStringLiteralToken, matchRawStringLit),
    (.bracketAccessDelimiterStartToken, fun v => v = "["),
    (.bracketAccessDelimiterEndToken, fun v => v = "]"),
    (.parenthesesStartToken, fun v => v = "("),
    (.parenthesesEndToken, fun v => v = ")"),
    (.dotObjectAccessToken, fun v => v = "."),
    (.rootAccessToken, fun v => v = "$"),
    (.currentObjectAccessToken, fun v => v = "@"),
    (.equalsToken, fun v => v = "="),
    (.selectorToken, fun v => v = ":"),
    (.filterToken, fun v => v = "?"),
    (.negationToken, fun v => v = "-"),
    (.asteriskToken, fun v => v = "*"),
    (.listSeparatorToken, fun v => v = ","),
    (.divideToken, fun v => v = "/"),
    (.greaterThanToken, fun v => v = ">"),
    (.lessThanToken, fun v => v = "<"),
    (.plusToken, fun v => v = "+"),
    (.notToken, fun v => v = "!"),
    (.powerToken, fun v => v = "^"),
    (.modulusToken, fun v => v = "%"),
    (.andToken, fun v => v = "&"),
    (.orToken, fun v => v = "|") ]

/-- A token as produced by the tokenizer.  The filename/line/column fields
carried by the source are elided: no claim depends on positions. -/
structure TokenValue where
  value : String
  tokenID : TokenID
deriving Repr, DecidableEq

/-- The classification half of `tokenizer.getNext`: the first matching
pattern of `tokenPatterns`, or `UnknownToken` when none matches. -/
def classifyToken (v : String) : TokenID :=
  match tokenPatterns.find? (fun p => p.2 v) with
  | some p => p.1
  | none => .unknownToken

/-- `tokenizer.getNext` on a scanned token text: an `InvalidTokenError` is
returned exactly when no pattern matches. -/
def getNextClassified (v : String) : GoRes String TokenValue :=
  if classifyToken v = .unknownToken then
    .err ("invalid token: " ++ v)
  else
    .ok ⟨v, classifyToken v⟩

/-! ## AST model (the `ast` package node types) -/

/-- `MathOperationType`, the enum of binary and unary operators. -/
inductive MathOperationType where
  | invalidOp
  | add
  | subtract
  | multiply
  | divide
  | modulus
  | power
  | equalTo
  | notEqualTo
  | greaterThan
  | lessThan
  | greaterThanEqualTo
  | lessThanEqualTo
  | and
  | or
  | not
deriving Repr, DecidableEq

/-- `MathOperationType.String`: note that `Divide` prints as the Unicode
division sign, not as the slash the tokenizer recognises. -/
def MathOperationType.str : MathOperationType → String
  | .invalidOp => "INVALID"
  | .add => "+"
  | .subtract => "-"
  | .multiply => "*"
  | .divide => "÷"
  | .modulus => "%"
  | .power => "^"
  | .equalTo => "=="
  | .notEqualTo => "!="
  | .greaterThan => ">"
  | .lessThan => "<"
  | .greaterThanEqualTo => ">="
  | .lessThanEqualTo => "<="
  | .and => "&&"
  | .or => "||"
  | .not => "!"

/-- The AST node sum type.  `FunctionCall` carries its identifier name and
its `ArgumentList` inlined as a list of argument nodes. -/
inductive Node where
  | stringLit (s : String)
  | intLit (i : Int)
  | floatLit (f : Rat)
  | boolLit (b : Bool)
  | ident (name : String)
  | dotNotation (left : Node) (right : Node)
  | bracketAccessor (left : Node) (rightExpression : Node)
  | functionCall (funcIdentifier : String) (args : List Node)
  | binaryOperation (left : Node) (operation : MathOperationType) (right : Node)
  | unaryOperation (leftOperation : MathOperationType) (right : Node)
deriving Repr

/-- `strconv.FormatFloat(f, 'f', -1, 64)` modelled over the exact rational
carrier: integral values print without a decimal point, as in Go's shortest
form.  No claim exercises non-integral float printing. -/
def formatGoFloat (r : Rat) : String :=
  if r.den = 1 then toString r.num
  else toString r.num ++ "/" ++ toString r.den

mutual

/-- The canonical printable form: each node's `String()` method. -/
def Node.str : Node → String
  | .stringLit s => "\"" ++ s ++ "\""
  | .intLit i => toString i
  | .floatLit f => formatGoFloat f
  | .boolLit b => if b then "true" else "false"
  | .ident name => name
  | .dotNotation l r => Node.str l ++ "." ++ Node.str r
  | .bracketAccessor l r => Node.str l ++ "[" ++ Node.str r ++ "]"
  | .functionCall f args => f ++ "(" ++ argsStr args ++ ")"
  | .binaryOperation l op r =>
      "(" ++ Node.str l ++ ") " ++ op.str ++ " (" ++ Node.str r ++ ")"
  | .unaryOperation op r => op.str ++ "(" ++ Node.str r ++ ") "

/-- `ArgumentList.String`: comma-separated argument strings. -/
def argsStr : List Node → String
  | [] => ""
  | [a] => Node.str a
  | a :: rest => Node.str a ++ ", " ++ argsStr rest

end

/-! ## Recursive-descent parser (internal/ast/recursive_descent_parser.go)

The parser is embedded over a stream of already-classified tokens (the
claims below never feed it a token the classifier rejects, so `getNext`
errors cannot arise at this level).  The mutable `Parser` struct becomes an
explicit state; mutual recursion through `parseRootExpression` is handled
with a fuel parameter, with fuel exhaustion modelled as a panic — the Go
code has no such case, and every theorem below supplies ample fuel. -/

/-- `InvalidGrammarError`: the found token (none at end of input) and the
expected set (`none` mirrors Go's nil slice, meaning end of input was
expected; `some []` mirrors the empty slice, meaning any token). Plain
`fmt.Errorf` errors of the parser are carried as `otherErr`. -/
inductive GrammarErr where
  | invalidGrammar (found : Option TokenValue) (expected : Option (List TokenID))
  | otherErr (msg : String)
deriving Repr, DecidableEq

/-- The `Parser` struct's mutable state: the remaining token stream, the
current token, and the at-root flag. -/
structure PState where
  rest : List TokenValue
  currentToken : Option TokenValue
  atRoot : Bool
deriving Repr, DecidableEq

/-- A parser computation: Go methods on `*Parser` returning `(α, error)`. -/
def PM (α : Type) : Type := PState → GoRes GrammarErr (α × PState)

instance : Monad PM where
  pure a := fun s => .ok (a, s)
  bind m f := fun s =>
    match m s with
    | .ok (a, s') => f a s'
    | .err e => .err e
    | .panic msg => .panic msg

def PM.fail {α : Type} (e : GrammarErr) : PM α := fun _ => .err e

def PM.panicNow {α : Type} (msg : String) : PM α := fun _ => .panic msg

def getState : PM PState := fun s => .ok (s, s)

def getCurrent : PM (Option TokenValue) := fun s => .ok (s.currentToken, s)

def setAtRoot (b : Bool) : PM Unit := fun s => .ok ((), { s with atRoot := b })

/-- `advanceToken`: pop the next token into `currentToken`, or clear it when
the stream is exhausted. -/
def advanceToken : PM Unit := fun s =>
  match s.rest with
  | t :: ts => .ok ((), { s with currentToken := some t, rest := ts })
  | [] => .ok ((), { s with currentToken := none })

def sliceContains (slice : List TokenID) (value : TokenID) : Bool :=
  slice.contains value

/-- `eat`: validate then move past one of the given tokens. -/
def eat (validTokens : List TokenID) : PM Unit := do
  let cur ← getCurrent
  match cur with
  | none => PM.fail (.invalidGrammar none (some validTokens))
  | some t =>
    if sliceContains validTokens t.tokenID then advanceToken
    else PM.fail (.invalidGrammar (some t) (some validTokens))

/-- `strconv.Atoi` on the digit strings produced by the int-literal
pattern. -/
def goAtoi (v : String) : Option Int :=
  let l := v.toList
  if l.isEmpty || !l.all goDigit then none
  else some (l.foldl (fun acc c => acc * 10 + (c.toNat - '0'.toNat)) (0 : Int))

/-- `strconv.ParseFloat` on the shapes matched by the float-literal pattern,
over the exact rational carrier: the mantissa is the integer and fraction
digits read as one integer, scaled by the appropriate power of ten. -/
def goParseFloat (v : String) : Option Rat :=
  let l := v.toList
  let intPart := l.takeWhile goDigit
  let r1 := l.dropWhile goDigit
  if intPart.isEmpty then none else
  match r1 with
  | '.' :: r2 =>
    let fracPart := r2.takeWhile goDigit
    let r3 := r2.dropWhile goDigit
    let mantissa : Int :=
      (intPart ++ fracPart).foldl (fun acc c => acc * 10 + (c.toNat - '0'.toNat)) (0 : Int)
    match r3 with
    | [] => some (mkRat mantissa (10 ^ fracPart.length))
    | e :: r4 =>
      if e = 'e' || e = 'E' then
        let (negExp, digitsPart) := match r4 with
          | '+' :: r5 => (false, r5)
          | '-' :: r5 => (true, r5)
          | _ => (false, r4)
        if digitsPart.isEmpty || !digitsPart.all goDigit then none
        else
          let ex := digitsPart.foldl (fun acc c => acc * 10 + (c.toNat - '0'.toNat)) (0 : Nat)
          some (if negExp then mkRat mantissa (10 ^ (fracPart.length + ex))
                else mkRat (mantissa * 10 ^ ex) (10 ^ fracPart.length))
      else none
  | _ => none

/-- `parseIntLiteral`. -/
def parseIntLiteral : PM Node := do
  let cur ← getCurrent
  match cur with
  | none => PM.panicNow "nil token dereference in parseIntLiteral"
  | some t =>
    if t.tokenID ≠ .intLiteralToken then
      PM.fail (.invalidGrammar (some t) (some [.intLiteralToken]))
    else
      match goAtoi t.value with
      | none => PM.fail (.otherErr "strconv.Atoi failed")
      | some i => do
        advanceToken
        pure (.intLit i)

/-- `parseFloatLiteral`. -/
def parseFloatLiteral : PM Node := do
  let cur ← getCurrent
  match cur with
  | none => PM.panicNow "nil token dereference in parseFloatLiteral"
  | some t =>
    if t.tokenID ≠ .floatLiteralToken then
      PM.fail (.invalidGrammar (some t) (some [.floatLiteralToken]))
    else
      match goParseFloat t.value with
      | none => PM.fail (.otherErr "strconv.ParseFloat failed")
      | some f => do
        advanceToken
        pure (.floatLit f)

/-- `parseBooleanLiteral`. -/
def parseBooleanLiteral : PM Node := do
  let cur ← getCurrent
  match cur with
  | none => PM.panicNow "nil token dereference in parseBooleanLiteral"
  | some t =>
    if t.tokenID ≠ .booleanLiteralToken then
      PM.fail (.invalidGrammar (some t) (some [.booleanLiteralToken]))
    else if t.value = "true" then do
      advanceToken
      pure (.boolLit true)
    else if t.value = "false" then do
      advanceToken
      pure (.boolLit false)
    else PM.fail (.otherErr "strconv.ParseBool failed")

/-- The `escapeReplacer` table: the six escape sequences and their
replacements, in the argument order given to `strings.NewReplacer`.
A pattern is stored as its first character plus the remaining characters,
which keeps visible that `strings.NewReplacer` patterns are non-empty. -/
def escapePairs : List ((Char × List Char) × List Char) :=
  [ (('\\', ['\\']), ['\\']),
    (('\\', ['t']), ['\t']),
    (('\\', ['n']), ['\n']),
    (('\\', ['r']), ['\r']),
    (('\\', ['b']), ['\x08']),
    (('\\', ['"']), ['"']) ]

/-- `strings.Replacer.Replace`: scan left to right; at each position apply
the first pattern (in argument order) that matches, then continue after the
replaced text; otherwise copy one character. -/
def goReplace (pairs : List ((Char × List Char) × List Char)) : List Char → List Char
  | [] => []
  | c :: rest =>
    match pairs.find? (fun p => (p.1.1 :: p.1.2).isPrefixOf (c :: rest)) with
    | some p => p.2 ++ goReplace pairs (rest.drop p.1.2.length)
    | none => c :: goReplace pairs rest
termination_by l => l.length
decreasing_by
  · simp [List.length_drop]
    omega
  · simp

/-- The string-unescaping step of `parseStringLiteral`: strip the first and
last character (the quotes) and run the escape replacer. -/
def parseStringLiteralValue (v : String) : String :=
  let inner := (v.toList.drop 1).dropLast
  String.mk (goReplace escapePairs inner)

/-- `parseStringLiteral`. -/
def parseStringLiteral : PM Node := do
  let cur ← getCurrent
  match cur with
  | none => PM.panicNow "nil token dereference in parseStringLiteral"
  | some t => do
    advanceToken
    pure (.stringLit (parseStringLiteralValue t.value))

/-- `parseIdentifier`. -/
def parseIdentifier : PM Node := do
  let cur ← getCurrent
  match cur with
  | none => PM.fail (.invalidGrammar none (some [.identifierToken]))
  | some t =>
    if t.tokenID ≠ .identifierToken then
      PM.fail (.invalidGrammar (some t) (some [.identifierToken]))
    else do
      advanceToken
      pure (.ident t.value)

/-- `parseMathOperator`: reads the operator's first token, then joins the
two-token operators by checking for a following equals sign (or the second
ampersand or pipe). -/
def parseMathOperator : PM MathOperationType := do
  let cur ← getCurrent
  match cur with
  | none => PM.panicNow "nil token dereference in parseMathOperator"
  | some first => do
    advanceToken
    match first.tokenID with
    | .plusToken => pure .add
    | .negationToken => pure .subtract
    | .asteriskToken => pure .multiply
    | .divideToken => pure .divide
    | .powerToken => pure .power
    | .modulusToken => pure .modulus
    | .notToken | .greaterThanToken | .lessThanToken | .equalsToken => do
      let cur2 ← getCurrent
      match cur2 with
      | some t2 =>
        if t2.tokenID = .equalsToken then do
          advanceToken
          match first.tokenID with
          | .notToken => pure .notEqualTo
          | .greaterThanToken => pure .greaterThanEqualTo
          | .lessThanToken => pure .lessThanEqualTo
          | .equalsToken => pure .equalTo
          | _ => PM.panicNow "illegal code state hit"
        else
          match first.tokenID with
          | .greaterThanToken => pure .greaterThan
          | .lessThanToken => pure .lessThan
          | .notToken => pure .not
          | .equalsToken => PM.fail (.invalidGrammar (some t2) (some [.equalsToken]))
          | _ => PM.panicNow "illegal code state hit"
      | none =>
        match first.tokenID with
        | .greaterThanToken => pure .greaterThan
        | .lessThanToken => pure .lessThan
        | .notToken => pure .not
        | .equalsToken => PM.fail (.invalidGrammar none (some [.equalsToken]))
        | _ => PM.panicNow "illegal code state hit"
    | .andToken => do
      let cur2 ← getCurrent
      match cur2 with
      | some t2 =>
        if t2.tokenID = .andToken then do
          advanceToken
          pure .and
        else PM.fail (.invalidGrammar (some t2) (some [.andToken]))
      | none => PM.fail (.invalidGrammar none (some [.andToken]))
    | .orToken => do
      let cur2 ← getCurrent
      match cur2 with
      | some t2 =>
        if t2.tokenID = .orToken then do
          advanceToken
          pure .or
        else PM.fail (.invalidGrammar (some t2) (some [.orToken]))
      | none => PM.fail (.invalidGrammar none (some [.orToken]))
    | _ =>
      PM.fail (.invalidGrammar (some first) (some
        [.plusToken, .negationToken, .asteriskToken, .divideToken, .powerToken,
         .notToken, .greaterThanToken, .lessThanToken, .equalsToken, .andToken,
         .orToken, .modulusToken]))

/-- Tokens a value-or-access expression may start with. -/
def expStartIdentifierTokens : List TokenID :=
  [.rootAccessToken, .currentObjectAccessToken, .identifierToken]

def literalTokens : List TokenID :=
  [.stringLiteralToken, .intLiteralToken, .booleanLiteralToken, .floatLiteralToken]

def validStartTokens : List TokenID := expStartIdentifierTokens ++ literalTokens

/-- The lookahead validation after a literal in
`parseValueOrAccessExpression`: a parenthesis, dot or bracket may not
follow a literal. -/
def literalLookahead (literalNode : Node) : PM Node := do
  let cur ← getCurrent
  match cur with
  | none => pure literalNode
  | some t2 =>
    match t2.tokenID with
    | .parenthesesStartToken =>
      PM.fail (.otherErr ("function call must start with an identifier; got " ++
        t2.value ++ " after " ++ literalNode.str))
    | .dotObjectAccessToken =>
      PM.fail (.otherErr ("dot notation cannot follow a literal; got " ++
        t2.value ++ " after " ++ literalNode.str))
    | .bracketAccessDelimiterStartToken =>
      PM.fail (.otherErr ("bracket access cannot follow a literal; got " ++
        t2.value ++ " after " ++ literalNode.str))
    | _ => pure literalNode

mutual

/-- `parseRootExpression`: delegates to the lowest-precedence level. -/
def parseRootExpression : Nat → PM Node
  | 0 => PM.panicNow "out of fuel"
  | fuel + 1 => parseConditionalOr fuel

def parseConditionalOr : Nat → PM Node
  | 0 => PM.panicNow "out of fuel"
  | fuel + 1 => parseBinaryExpression fuel [.orToken] (parseConditionalAnd fuel)

def parseConditionalAnd : Nat → PM Node
  | 0 => PM.panicNow "out of fuel"
  | fuel + 1 => parseBinaryExpression fuel [.andToken] (parseConditionalNot fuel)

def parseConditionalNot : Nat → PM Node
  | 0 => PM.panicNow "out of fuel"
  | fuel + 1 => parseLeftUnaryExpression fuel [.notToken] (parseComparisonExpression fuel)

def parseComparisonExpression : Nat → PM Node
  | 0 => PM.panicNow "out of fuel"
  | fuel + 1 =>
    parseBinaryExpression fuel
      [.greaterThanToken, .lessThanToken, .notToken, .equalsToken]
      (parseAdditionSubtraction fuel)

def parseAdditionSubtraction : Nat → PM Node
  | 0 => PM.panicNow "out of fuel"
  | fuel + 1 =>
    parseBinaryExpression fuel [.plusToken, .negationToken]
      (parseMultiplicationDivision fuel)

def parseMultiplicationDivision : Nat → PM Node
  | 0 => PM.panicNow "out of fuel"
  | fuel + 1 =>
    parseBinaryExpression fuel [.asteriskToken, .divideToken, .modulusToken]
      (parseExponents fuel)

def parseExponents : Nat → PM Node
  | 0 => PM.panicNow "out of fuel"
  | fuel + 1 => parseBinaryExpression fuel [.powerToken] (parseParentheses fuel)

/-- `parseBinaryExpression`: parse the first operand, then iteratively fold
further operands while a supported operator token is current, producing a
left-leaning tree. -/
def parseBinaryExpression : Nat → List TokenID → PM Node → PM Node
  | 0, _, _ => PM.panicNow "out of fuel"
  | fuel + 1, supportedOperators, childNodeParse => do
    let root ← childNodeParse
    parseBinaryLoop fuel supportedOperators childNodeParse root

def parseBinaryLoop : Nat → List TokenID → PM Node → Node → PM Node
  | 0, _, _, _ => PM.panicNow "out of fuel"
  | fuel + 1, supportedOperators, childNodeParse, root => do
    let cur ← getCurrent
    match cur with
    | some t =>
      if sliceContains supportedOperators t.tokenID then do
        let operatorToken ← parseMathOperator
        let right ← childNodeParse
        parseBinaryLoop fuel supportedOperators childNodeParse
          (.binaryOperation root operatorToken right)
      else pure root
    | none => pure root

/-- `parseLeftUnaryExpression`: when the operator is present the rest of the
expression is parsed from `parseRootExpression`, not from the child level. -/
def parseLeftUnaryExpression : Nat → List TokenID → PM Node → PM Node
  | 0, _, _ => PM.panicNow "out of fuel"
  | fuel + 1, supportedOperators, childNodeParse => do
    let cur ← getCurrent
    match cur with
    | none => PM.fail (.invalidGrammar none (some []))
    | some t =>
      if sliceContains supportedOperators t.tokenID then do
        let operation ← parseMathOperator
        let subNode ← parseRootExpression fuel
        pure (.unaryOperation operation subNode)
      else childNodeParse

def parseParentheses : Nat → PM Node
  | 0 => PM.panicNow "out of fuel"
  | fuel + 1 => do
    let cur ← getCurrent
    match cur with
    | none => PM.panicNow "nil token dereference in parseParentheses"
    | some t =>
      if t.tokenID ≠ .parenthesesStartToken then parseNegationOperation fuel
      else do
        advanceToken
        let node ← parseRootExpression fuel
        eat [.parenthesesEndToken]
        pure node

def parseNegationOperation : Nat → PM Node
  | 0 => PM.panicNow "out of fuel"
  | fuel + 1 =>
    parseLeftUnaryExpression fuel [.negationToken] (parseValueOrAccessExpression fuel)

def parseValueOrAccessExpression : Nat → PM Node
  | 0 => PM.panicNow "out of fuel"
  | fuel + 1 => do
    let s ← getState
    match s.currentToken with
    | none => PM.fail (.invalidGrammar none (some validStartTokens))
    | some t =>
      if !sliceContains validStartTokens t.tokenID then
        PM.fail (.invalidGrammar (some t) (some validStartTokens))
      else if s.atRoot && t.tokenID = .currentObjectAccessToken then
        PM.fail (.invalidGrammar (some t) (some [.rootAccessToken, .identifierToken]))
      else do
        setAtRoot false
        match t.tokenID with
        | .stringLiteralToken => do
          let literalNode ← parseStringLiteral
          literalLookahead literalNode
        | .intLiteralToken => do
          let literalNode ← parseIntLiteral
          literalLookahead literalNode
        | .floatLiteralToken => do
          let literalNode ← parseFloatLiteral
          literalLookahead literalNode
        | .booleanLiteralToken => do
          let literalNode ← parseBooleanLiteral
          literalLookahead literalNode
        | _ => parseIdentifierOrFunction fuel

def parseIdentifierOrFunction : Nat → PM Node
  | 0 => PM.panicNow "out of fuel"
  | fuel + 1 => do
    let cur ← getCurrent
    match cur with
    | none => PM.panicNow "nil token dereference in parseIdentifierOrFunction"
    | some t => do
      advanceToken
      let chainableNode ← parseFunctionArgs fuel t.value
      let cur2 ← getCurrent
      match cur2 with
      | none => pure chainableNode
      | some _ => parseChainedAccess fuel chainableNode

/-- `parseFunctionArgs`: with no parenthesis after the identifier the
identifier itself is returned for chaining. -/
def parseFunctionArgs : Nat → String → PM Node
  | 0, _ => PM.panicNow "out of fuel"
  | fuel + 1, precedingIdentifier => do
    let cur ← getCurrent
    match cur with
    | none => pure (.ident precedingIdentifier)
    | some t =>
      if t.tokenID ≠ .parenthesesStartToken then pure (.ident precedingIdentifier)
      else do
        let argList ← parseArgs fuel
        pure (.functionCall precedingIdentifier argList)

def parseArgs : Nat → PM (List Node)
  | 0 => PM.panicNow "out of fuel"
  | fuel + 1 => parseArgsLoop fuel 0 .parenthesesStartToken []

def parseArgsLoop : Nat → Nat → TokenID → List Node → PM (List Node)
  | 0, _, _, _ => PM.panicNow "out of fuel"
  | fuel + 1, i, expectedToken, argNodes => do
    let cur ← getCurrent
    match cur with
    | none =>
      if i ≠ 0 then PM.fail (.invalidGrammar none (some [.parenthesesEndToken]))
      else PM.panicNow "nil token dereference in parseArgs"
    | some t =>
      if i ≠ 0 && t.tokenID = .parenthesesEndToken then do
        advanceToken
        pure argNodes
      else if t.tokenID ≠ expectedToken then
        PM.fail (.invalidGrammar (some t)
          (some ([expectedToken] ++ (if i ≠ 0 then [.parenthesesEndToken] else []))))
      else do
        advanceToken
        let cur2 ← getCurrent
        match cur2 with
        | none => PM.fail (.invalidGrammar none (some [.parenthesesEndToken]))
        | some t2 =>
          if i = 0 && t2.tokenID = .parenthesesEndToken then do
            advanceToken
            pure argNodes
          else do
            let arg ← parseRootExpression fuel
            parseArgsLoop fuel (i + 1)
              (if i = 0 then .listSeparatorToken else expectedToken)
              (argNodes ++ [arg])

def parseChainedAccess : Nat → Node → PM Node
  | 0, _ => PM.panicNow "out of fuel"
  | fuel + 1, rootNode => do
    let cur ← getCurrent
    match cur with
    | none => pure rootNode
    | some t =>
      match t.tokenID with
      | .dotObjectAccessToken => do
        advanceToken
        let accessingIdentifier ← parseIdentifier
        parseChainedAccess fuel (.dotNotation rootNode accessingIdentifier)
      | .bracketAccessDelimiterStartToken => do
        let parsedMapAccess ← parseBracketAccess fuel rootNode
        parseChainedAccess fuel parsedMapAccess
      | _ => pure rootNode

def parseBracketAccess : Nat → Node → PM Node
  | 0, _ => PM.panicNow "out of fuel"
  | fuel + 1, expressionToAccess => do
    let cur ← getCurrent
    match cur with
    | none => PM.fail (.invalidGrammar none (some [.identifierToken]))
    | some t =>
      if t.tokenID ≠ .bracketAccessDelimiterStartToken then
        PM.fail (.invalidGrammar (some t) (some [.identifierToken]))
      else do
        advanceToken
        let subExpr ← parseRootExpression fuel
        eat [.bracketAccessDelimiterEndToken]
        pure (.bracketAccessor expressionToAccess subExpr)

end

/-- `Parser.ParseExpression` over a classified token stream: advance to the
first token, parse the root expression, and require the stream to be fully
consumed. -/
def parseExpression (fuel : Nat) (tokens : List TokenValue) : GoRes GrammarErr Node :=
  let run : PM Node := do
    advanceToken
    parseRootExpression fuel
  match run ⟨tokens, none, true⟩ with
  | .ok (node, s) =>
    match s.currentToken with
    | none => .ok node
    | some t => .err (.invalidGrammar (some t) none)
  | .err e => .err e
  | .panic m => .panic m

/-! ## Evaluator (the latest `expression_evaluate` revision)

Runtime values are the dynamic (`any`) values the evaluator dispatches on
with reflection: 64-bit ints, floats, strings, bools, slices, maps and nil.
Maps are modelled as association lists with first-match lookup. -/

inductive Value where
  | vNull
  | vInt (i : Int)
  | vFloat (f : Rat)
  | vStr (s : String)
  | vBool (b : Bool)
  | vList (items : List Value)
  | vMap (entries : List (Value × Value))
deriving Repr

mutual

/-- Equality of dynamic values (Go interface equality on the modelled
carriers). -/
def Value.beq : Value → Value → Bool
  | .vNull, .vNull => true
  | .vInt a, .vInt b => a == b
  | .vFloat a, .vFloat b => a == b
  | .vStr a, .vStr b => a == b
  | .vBool a, .vBool b => a == b
  | .vList a, .vList b => Value.listBeq a b
  | .vMap a, .vMap b => Value.entriesBeq a b
  | _, _ => false

def Value.listBeq : List Value → List Value → Bool
  | [], [] => true
  | a :: as, b :: bs => Value.beq a b && Value.listBeq as bs
  | _, _ => false

def Value.entriesBeq : List (Value × Value) → List (Value × Value) → Bool
  | [], [] => true
  | (k1, v1) :: as, (k2, v2) :: bs =>
    Value.beq k1 k2 && Value.beq v1 v2 && Value.entriesBeq as bs
  | _, _ => false

end

instance : BEq Value := ⟨Value.beq⟩

/-- The dynamic type name `%T` prints for a value (`nil` has no type). -/
def goTypeName : Value → Option String
  | .vNull => none
  | .vInt _ => some "int64"
  | .vFloat _ => some "float64"
  | .vStr _ => some "string"
  | .vBool _ => some "bool"
  | .vList _ => some "[]interface \x7b\x7d"
  | .vMap _ => some "map[interface \x7b\x7d]interface \x7b\x7d"

/-- `%T` as printed (a nil interface prints `<nil>`). -/
def goTypeNameStr (v : Value) : String := (goTypeName v).getD "<nil>"

/-- `reflect.Kind().String()` for the modelled values. -/
def goKindString : Value → String
  | .vNull => "invalid"
  | .vInt _ => "int64"
  | .vFloat _ => "float64"
  | .vStr _ => "string"
  | .vBool _ => "bool"
  | .vList _ => "slice"
  | .vMap _ => "map"

/-- `%v` formatting for the modelled values, as used in error messages. -/
def goFormatValue : Value → String
  | .vNull => "<nil>"
  | .vInt i => toString i
  | .vFloat f => formatGoFloat f
  | .vStr s => s
  | .vBool b => if b then "true" else "false"
  | .vList _ => "[...]"
  | .vMap _ => "map[...]"

/-- Go truncated integer division (`/` on int64); division by zero is a
runtime panic. -/
def goIntDiv (a b : Int) : GoRes String Value :=
  if b = 0 then .panic "runtime error: integer divide by zero"
  else .ok (.vInt (Int.tdiv a b))

/-- Go truncated integer remainder (`%` on int64). -/
def goIntMod (a b : Int) : GoRes String Value :=
  if b = 0 then .panic "runtime error: integer divide by zero"
  else .ok (.vInt (Int.tmod a b))

/-- `math.Pow` over the exact rational carrier, for the exponents that have
an exact rational value; no claim exercises `Power` at evaluation. -/
def mathPow (a b : Rat) : Rat :=
  if b.den = 1 then a ^ b.num else 0

/-- Truncation of a rational toward zero (the float-to-int conversion). -/
def ratTrunc (r : Rat) : Int := if r ≥ 0 then r.floor else r.ceil

/-- `math.Mod`: the truncated floating-point remainder. -/
def mathMod (a b : Rat) : Rat := a - b * (ratTrunc (a / b) : Int)

/-- `evalNumericalOperation` instantiated at int64. -/
def evalNumericalOperationInt (a b : Int) : MathOperationType → GoRes String Value
  | .add => .ok (.vInt (a + b))
  | .subtract => .ok (.vInt (a - b))
  | .multiply => .ok (.vInt (a * b))
  | .divide => goIntDiv a b
  | .modulus => goIntMod a b
  | .power => .ok (.vInt (ratTrunc (mathPow (a : Rat) (b : Rat))))
  | .equalTo => .ok (.vBool (a = b))
  | .notEqualTo => .ok (.vBool (a ≠ b))
  | .greaterThan => .ok (.vBool (a > b))
  | .lessThan => .ok (.vBool (a < b))
  | .greaterThanEqualTo => .ok (.vBool (a ≥ b))
  | .lessThanEqualTo => .ok (.vBool (a ≤ b))
  | .and | .or => .err "attempted logical operation on numeric input int64"
  | .invalidOp => .panic "invalid operation encountered evaluating numerical operation"
  | .not => .panic "numeric eval missing case for logical operation !"

/-- `evalNumericalOperation` instantiated at float64 (exact rationals; the
module header records the floating-point deviations, none exercised by a
claim). -/
def evalNumericalOperationFloat (a b : Rat) : MathOperationType → GoRes String Value
  | .add => .ok (.vFloat (a + b))
  | .subtract => .ok (.vFloat (a - b))
  | .multiply => .ok (.vFloat (a * b))
  | .divide => .ok (.vFloat (a / b))
  | .modulus => .ok (.vFloat (mathMod a b))
  | .power => .ok (.vFloat (mathPow a b))
  | .equalTo => .ok (.vBool (a = b))
  | .notEqualTo => .ok (.vBool (a ≠ b))
  | .greaterThan => .ok (.vBool (a > b))
  | .lessThan => .ok (.vBool (a < b))
  | .greaterThanEqualTo => .ok (.vBool (a ≥ b))
  | .lessThanEqualTo => .ok (.vBool (a ≤ b))
  | .and | .or => .err "attempted logical operation on numeric input float64"
  | .invalidOp => .panic "invalid operation encountered evaluating numerical operation"
  | .not => .panic "numeric eval missing case for logical operation !"

/-- `evalBooleanOperation`. -/
def evalBooleanOperation (a b : Bool) : MathOperationType → GoRes String Value
  | .equalTo => .ok (.vBool (a = b))
  | .notEqualTo => .ok (.vBool (a ≠ b))
  | .and => .ok (.vBool (a && b))
  | .or => .ok (.vBool (a || b))
  | .power | .modulus | .divide | .multiply | .subtract | .add
  | .greaterThan | .lessThan | .greaterThanEqualTo | .lessThanEqualTo =>
    .err "attempted to perform invalid operation on boolean"
  | .invalidOp => .panic "invalid operation encountered evaluating boolean operation"
  | .not => .panic "boolean eval missing case for logical operation !"

/-- `evalStringOperation`: `+` concatenates; the six comparisons are
lexicographic. -/
def evalStringOperation (a b : String) : MathOperationType → GoRes String Value
  | .add => .ok (.vStr (a ++ b))
  | .equalTo => .ok (.vBool (a = b))
  | .notEqualTo => .ok (.vBool (a ≠ b))
  | .greaterThan => .ok (.vBool (b < a))
  | .lessThan => .ok (.vBool (a < b))
  | .greaterThanEqualTo => .ok (.vBool (¬ a < b))
  | .lessThanEqualTo => .ok (.vBool (¬ b < a))
  | .subtract | .multiply | .divide | .modulus | .power | .and | .or =>
    .err "string operations do not support this operator"
  | .invalidOp => .panic "invalid operation encountered evaluating string operation"
  | .not => .panic "string eval missing case for logical operation !"

/-- `evaluateMapAccess`: look up a key in a map, or an index in a slice.
Only int64 slice indexes are accepted; the index must be in bounds.  The
`int64`-to-`int` width check in the source cannot fail on a 64-bit
platform and so is not reproduced. -/
def evaluateMapAccess (data : Value) (mapKey : Value) : GoRes String Value :=
  match data with
  | .vMap entries =>
    match entries.find? (fun e => Value.beq e.1 mapKey) with
    | some e => .ok e.2
    | none => .err ("map key " ++ goFormatValue mapKey ++ " not found")
  | .vList items =>
    match mapKey with
    | .vInt sliceIndex =>
      let sliceLen : Int := items.length
      if sliceLen ≤ sliceIndex then
        .err ("index " ++ toString sliceIndex ++
          " is larger than the list items length (" ++ toString sliceLen ++ ")")
      else if sliceIndex < 0 then
        .err ("invalid index (" ++ toString sliceIndex ++
          "); must be non-negative integer")
      else
        match items.get? sliceIndex.toNat with
        | some v => .ok v
        | none => .panic "unreachable: in-bounds index"
    | _ =>
      .err ("unsupported slice index type " ++ goTypeNameStr mapKey ++
        ", expected int64")
  | _ =>
    .err ("cannot evaluate identifier " ++ goFormatValue mapKey ++ " on a " ++
      goKindString data)

/-- A host callable function as consumed at evaluation: only the parameter
count and the call itself are consulted. -/
structure CallableFunction where
  paramCount : Nat
  call : List Value → GoRes String Value

/-- `evaluateContext`: the root data and the function registry (the workflow
context is threaded but never read, and is elided). -/
structure EvaluateContext where
  rootData : Value
  functions : List (String × CallableFunction)

/-- `evaluateIdentifier`: `$` yields the root data; any other name is a map
key lookup on the current subject. -/
def evaluateIdentifier (c : EvaluateContext) (name : String) (data : Value) :
    GoRes String Value :=
  if name = "$" then .ok c.rootData
  else evaluateMapAccess data (.vStr name)

/-- The type check and per-type dispatch of `evaluateBinaryOperation`, after
both operands have been evaluated. -/
def binaryOperationDispatch (leftEval rightEval : Value)
    (op : MathOperationType) : GoRes String Value :=
  if goTypeName leftEval ≠ goTypeName rightEval then
    .err ("left type " ++ goTypeNameStr leftEval ++ " and right type " ++
      goTypeNameStr rightEval ++ " of binary operation " ++ op.str ++ " do not match")
  else
    match leftEval, rightEval with
    | .vInt a, .vInt b => evalNumericalOperationInt a b op
    | .vFloat a, .vFloat b => evalNumericalOperationFloat a b op
    | .vStr a, .vStr b => evalStringOperation a b op
    | .vBool a, .vBool b => evalBooleanOperation a b op
    | _, _ => .err ("unsupported type to perform binary operation on: " ++
        goTypeNameStr leftEval)

/-- The per-operator dispatch of `evaluateUnaryOperation`, after the operand
has been evaluated. -/
def unaryOperationDispatch (op : MathOperationType) (rightEval : Value) :
    GoRes String Value :=
  if op = .subtract then
    match rightEval with
    | .vInt i => .ok (.vInt (-i))
    | .vFloat f => .ok (.vFloat (-f))
    | _ => .err ("unsupported type for arithmetic negation: " ++
        goTypeNameStr rightEval ++ "; expected 64-bit int or float")
  else if op = .not then
    match rightEval with
    | .vBool b => .ok (.vBool (!b))
    | _ => .err ("unsupported type for boolean complement: " ++
        goTypeNameStr rightEval ++ "; expected boolean")
  else
    .err ("only unary operators - and ! are currently supported; got " ++ op.str)

/-- The arity check and call of `evaluateFuncCall`, after the callable has
been found and the arguments evaluated. -/
def funcCallDispatch (funcID : String) (f : CallableFunction)
    (evaluatedArgs : List Value) : GoRes String Value :=
  if evaluatedArgs.length ≠ f.paramCount then
    .err ("function " ++ funcID ++ " called with incorrect number of arguments; expected " ++
      toString f.paramCount ++ ", got " ++ toString evaluatedArgs.length)
  else
    f.call evaluatedArgs

mutual

/-- `evaluateContext.evaluate`: literals first, then dispatch by node type.
The bodies of the per-node helper methods are inlined here for Lean's
termination checker; the named forms below restate each method and are
proved equal to the corresponding case. -/
def evaluate (c : EvaluateContext) : Node → Value → GoRes String Value
  | .stringLit s, _ => .ok (.vStr s)
  | .intLit i, _ => .ok (.vInt i)
  | .floatLit f, _ => .ok (.vFloat f)
  | .boolLit b, _ => .ok (.vBool b)
  | .dotNotation l r, data => do
    let leftResult ← evaluate c l data
    evaluate c r leftResult
  | .bracketAccessor l r, data => do
    let leftResult ← evaluate c l data
    let mapKey ← evaluate c r leftResult
    evaluateMapAccess leftResult mapKey
  | .ident name, data => evaluateIdentifier c name data
  | .functionCall funcID args, _ =>
    match c.functions.find? (fun e => e.1 == funcID) with
    | none => .err ("function with ID " ++ funcID ++ " not found")
    | some e => do
      let evaluatedArgs ← evaluateParameters c args
      funcCallDispatch funcID e.2 evaluatedArgs
  | .binaryOperation l op r, _ => do
    let leftEval ← evaluate c l c.rootData
    let rightEval ← evaluate c r c.rootData
    binaryOperationDispatch leftEval rightEval op
  | .unaryOperation op r, _ => do
    let rightEval ← evaluate c r c.rootData
    unaryOperationDispatch op rightEval

/-- `evaluateParameters`: each argument is evaluated against the root
data. -/
def evaluateParameters (c : EvaluateContext) : List Node → GoRes String (List Value)
  | [] => .ok []
  | a :: rest => do
    let v ← evaluate c a c.rootData
    let vs ← evaluateParameters c rest
    .ok (v :: vs)

end

/-- `evaluateDotNotation`: evaluate the left node, then the right node with
the left's result as the subject. -/
def evaluateDotNotation (c : EvaluateContext) (l r : Node) (data : Value) :
    GoRes String Value := do
  let leftResult ← evaluate c l data
  evaluate c r leftResult

/-- `evaluateBracketAccessor`: evaluate the left node; evaluate the bracket
subexpression with the left's result as its subject; apply the key to the
left's result. -/
def evaluateBracketAccessor (c : EvaluateContext) (l r : Node) (data : Value) :
    GoRes String Value := do
  let leftResult ← evaluate c l data
  let mapKey ← evaluate c r leftResult
  evaluateMapAccess leftResult mapKey

/-- `evaluateFuncCall`: look up the callable, evaluate the arguments from
the root data, check the arity, and call. -/
def evaluateFuncCall (c : EvaluateContext) (funcID : String) (args : List Node) :
    GoRes String Value :=
  match c.functions.find? (fun e => e.1 == funcID) with
  | none => .err ("function with ID " ++ funcID ++ " not found")
  | some e => do
    let evaluatedArgs ← evaluateParameters c args
    funcCallDispatch funcID e.2 evaluatedArgs

/-- `evaluateBinaryOperation`: both operands are evaluated against the root
data; mismatched dynamic types are an error; then dispatch by type. -/
def evaluateBinaryOperation (c : EvaluateContext) (l : Node)
    (op : MathOperationType) (r : Node) : GoRes String Value := do
  let leftEval ← evaluate c l c.rootData
  let rightEval ← evaluate c r c.rootData
  binaryOperationDispatch leftEval rightEval op

/-- `evaluateUnaryOperation`: the operand is evaluated against the root
data; `-` negates numbers, `!` complements booleans. -/
def evaluateUnaryOperation (c : EvaluateContext) (op : MathOperationType)
    (r : Node) : GoRes String Value := do
  let rightEval ← evaluate c r c.rootData
  unaryOperationDispatch op rightEval

/-! ## Path model (the latest `path` revision, with typed nodes)

A path item is any value; here the string, integer, boolean and float
carriers that actually reach path items.  `PathNodeType` is a string type
in the source and is kept as a string, so that the panic on an
unrecognised node type is expressible. -/

inductive PathItem where
  | str (s : String)
  | int (i : Int)
  | bool (b : Bool)
  | float (f : Rat)
deriving Repr, DecidableEq

/-- `fmt.Sprintf("%v", item)` on a path item. -/
def PathItem.fmt : PathItem → String
  | .str s => s
  | .int i => toString i
  | .bool b => if b then "true" else "false"
  | .float f => formatGoFloat f

/-- `Path`: the flattened form of one dependency. -/
abbrev Path := List PathItem

/-- `Path.String`: the dot-joined printable dependency. -/
def Path.string (p : Path) : String :=
  String.intercalate "." (p.map PathItem.fmt)

/-- The `PathNodeType` constants. -/
def DataRootNode : String := "root"

def FunctionNode : String := "function"

def AccessNode : String := "access"

def KeyNode : String := "key"

def PastTerminalNode : String := "past-terminal"

/-- `PathTree`: a branching accumulation of paths. -/
inductive PathTree where
  | mk (pathItem : PathItem) (nodeType : String) (subtrees : List PathTree)
deriving Repr

def PathTree.pathItem : PathTree → PathItem
  | .mk i _ _ => i

def PathTree.nodeType : PathTree → String
  | .mk _ n _ => n

def PathTree.subtrees : PathTree → List PathTree
  | .mk _ _ s => s

/-- `UnpackRequirements`. -/
structure UnpackRequirements where
  excludeDataRootPaths : Bool := false
  excludeFunctionRootPaths : Bool := false
  stopAtTerminals : Bool := false
  includeKeys : Bool := false
deriving Repr, DecidableEq

/-- `UnpackRequirements.shouldStop`: panics on a node type it does not
recognise. -/
def shouldStop (r : UnpackRequirements) (nodeType : String) : GoRes String Bool :=
  if nodeType = DataRootNode then .ok r.excludeDataRootPaths
  else if nodeType = FunctionNode then .ok r.excludeFunctionRootPaths
  else if nodeType = PastTerminalNode then .ok r.stopAtTerminals
  else if nodeType = AccessNode ∨ nodeType = KeyNode then .ok false
  else .panic ("node type " ++ nodeType ++ " missing in shouldStop in path")

/-- `UnpackRequirements.shouldSkip`: only key nodes are skipped, and only
when keys are not included. -/
def shouldSkip (r : UnpackRequirements) (nodeType : String) : Bool :=
  nodeType == KeyNode && !r.includeKeys

mutual

/-- `PathTree.Unpack`: stop, or collect the subtree paths (prepending this
node's segment unless skipped), or emit the singleton path of this node's
segment when nothing came back and the node is not skipped.  The panic of
`shouldStop` on an unrecognised node type propagates. -/
def PathTree.unpack (req : UnpackRequirements) : PathTree → GoRes String (List Path)
  | .mk pathItem nodeType subtrees =>
    match shouldStop req nodeType with
    | .err e => .err e
    | .panic m => .panic m
    | .ok true => .ok []
    | .ok false =>
      match PathTree.unpackSubtrees req pathItem nodeType subtrees with
      | .err e => .err e
      | .panic m => .panic m
      | .ok result =>
        if result.isEmpty && !shouldSkip req nodeType then .ok [[pathItem]]
        else .ok result

/-- The subtree loop of `PathTree.Unpack`, in subtree order. -/
def PathTree.unpackSubtrees (req : UnpackRequirements) (pathItem : PathItem)
    (nodeType : String) : List PathTree → GoRes String (List Path)
  | [] => .ok []
  | t :: rest => do
    let rs ← PathTree.unpack req t
    let restPaths ← PathTree.unpackSubtrees req pathItem nodeType rest
    .ok ((rs.map (fun subtreeResult =>
      (if shouldSkip req nodeType then [] else [pathItem]) ++ subtreeResult)) ++ restPaths)

end

/-- The deduplication loop of `expression.Dependencies`: keep each unpacked
path whose string form was not seen before, in encounter order (the
`finalDependencySet` map of the source, as a list of seen strings). -/
def dedupLoop (seen : List String) (acc : List Path) : List Path → List Path
  | [] => acc
  | d :: rest =>
    let asString := d.string
    if seen.contains asString then dedupLoop seen acc rest
    else dedupLoop (asString :: seen) (acc ++ [d]) rest

def dedupPaths (l : List Path) : List Path := dedupLoop [] [] l

/-! ## Dependency/type resolver (the latest `expression_dependencies` revision)

The schema capability set (type classification, properties, keys/values,
items) is embedded as an inductive; compatibility validation and function
output types are host capabilities and are parameters of the context.
The resolver mutates a shared `PathTree` through pointers; that aliasing is
modelled with an arena of nodes addressed by index, with `PathTree` values
read back out of the arena at the end. -/

inductive SchemaT where
  | sInt
  | sFloat
  | sString
  | sBool
  | sAny
  | sList (items : SchemaT)
  | sMap (keys : SchemaT) (values : SchemaT)
  | sObject (id : String) (props : List (String × SchemaT))
  | sRef (id : String) (props : List (String × SchemaT))
  | sScope (id : String) (props : List (String × SchemaT))
deriving Repr

/-- `TypeID()` of a schema type (the identifying strings of the external
schema library, only compared among themselves and printed in errors). -/
def SchemaT.typeID : SchemaT → String
  | .sInt => "integer"
  | .sFloat => "float"
  | .sString => "string"
  | .sBool => "bool"
  | .sAny => "any"
  | .sList _ => "list"
  | .sMap _ _ => "map"
  | .sObject _ _ => "object"
  | .sRef _ _ => "ref"
  | .sScope _ _ => "scope"

/-- A node of the resolver's path arena: one `PathTree` struct, its subtree
pointers held as arena indexes. -/
structure ANode where
  pathItem : PathItem
  nodeType : String
  children : List Nat
deriving Repr

/-- The arena of `PathTree` nodes allocated during one resolution. -/
structure Arena where
  nodes : Array ANode
deriving Repr

/-- A resolver computation threading the arena. -/
def DepM (α : Type) : Type := Arena → GoRes String (α × Arena)

instance : Monad DepM where
  pure a := fun s => .ok (a, s)
  bind m f := fun s =>
    match m s with
    | .ok (a, s') => f a s'
    | .err e => .err e
    | .panic msg => .panic msg

def DepM.fail {α : Type} (msg : String) : DepM α := fun _ => .err msg

def DepM.panicNow {α : Type} (msg : String) : DepM α := fun _ => .panic msg

/-- Allocate a fresh `PathTree` node (a `&PathTree{...}` in the source). -/
def allocNode (item : PathItem) (nodeType : String) : DepM Nat := fun a =>
  .ok (a.nodes.size, ⟨a.nodes.push ⟨item, nodeType, []⟩⟩)

/-- `parent.Subtrees = append(parent.Subtrees, child)`. -/
def appendChild (parent : Nat) (child : Nat) : DepM Unit := fun a =>
  if h : parent < a.nodes.size then
    let n := a.nodes.get ⟨parent, h⟩
    .ok ((), ⟨a.nodes.set ⟨parent, h⟩ { n with children := n.children ++ [child] }⟩)
  else .panic "invalid arena index"

/-- `dependencyResult`: the resolved type, the chainable path node, the
root path node, and the completed dependency trees (all as arena
indexes; `none` is a nil pointer). -/
structure DependencyResult where
  resolvedType : SchemaT
  chainablePath : Option Nat
  rootPathResult : Option Nat
  completedPaths : List Nat

/-- A host function schema as consumed by the resolver: identifier,
parameter types, the output-type capability and the printable form used in
diagnostics. -/
structure FunSchema where
  id : String
  params : List SchemaT
  output : List SchemaT → GoRes String SchemaT
  printable : String

/-- `dependencyContext`: the root schema and the function registry, plus
the external `ValidateCompatibility` capability (`none` when compatible,
an error message otherwise).  The workflow context is never read and is
elided. -/
structure DependencyContext where
  rootType : SchemaT
  functions : List (String × FunSchema)
  validateCompat : SchemaT → SchemaT → Option String

/-- `dependenciesAccessObject`: look a property up on an object-like type,
or mark descent past an `any` terminal. -/
def dependenciesAccessObject (leftType : SchemaT) (identifier : String)
    (path : Option Nat) : DepM DependencyResult :=
  match leftType with
  | .sScope oid props | .sRef oid props | .sObject oid props =>
    match props.find? (fun p => p.1 == identifier) with
    | none =>
      DepM.fail ("object " ++ oid ++ " does not have a property named \"" ++
        identifier ++ "\"")
    | some property => do
      match path with
      | none => DepM.panicNow "runtime error: invalid memory address or nil pointer dereference"
      | some parent => do
        let pathItem ← allocNode (.str identifier) AccessNode
        appendChild parent pathItem
        pure { resolvedType := property.2, chainablePath := some pathItem,
               rootPathResult := path, completedPaths := [] }
  | .sAny => do
    match path with
    | none => DepM.panicNow "runtime error: invalid memory address or nil pointer dereference"
    | some parent => do
      let pathItem ← allocNode (.str identifier) PastTerminalNode
      appendChild parent pathItem
      pure { resolvedType := .sAny, chainablePath := some pathItem,
             rootPathResult := none, completedPaths := [] }
  | _ =>
    DepM.fail ("cannot evaluate expression identifier " ++ identifier ++
      " on data type " ++ leftType.typeID)

/-- `identifierDependencies`: `$` requires the incoming path to be absent or
the data root; any other identifier is an object access. -/
def identifierDependencies (c : DependencyContext) (name : String)
    (currentType : SchemaT) (path : Option Nat) : DepM DependencyResult :=
  if name = "$" then
    match path with
    | none => do
      let root ← allocNode (.str "$") DataRootNode
      pure { resolvedType := c.rootType, chainablePath := none,
             rootPathResult := some root, completedPaths := [] }
    | some p => fun a =>
      if h : p < a.nodes.size then
        let n := a.nodes.get ⟨p, h⟩
        if n.nodeType = DataRootNode then
          .ok ({ resolvedType := c.rootType, chainablePath := some p,
                 rootPathResult := some p, completedPaths := [] }, a)
        else
          .err ("root access \"" ++ n.pathItem.fmt ++ "\" of type \"" ++
            n.nodeType ++ "\" not at root")
      else .panic "invalid arena index"
  else
    dependenciesAccessObject currentType name path

/-- `addKeyNode`: when the bracket subexpression is a value literal, append
a key node carrying the literal value to the chainable path. -/
def addKeyNode (node : Node) (path : Option Nat) : DepM (Option Nat) :=
  let literalValue : Option PathItem :=
    match node with
    | .stringLit s => some (.str s)
    | .intLit i => some (.int i)
    | .floatLit f => some (.float f)
    | .boolLit b => some (.bool b)
    | _ => none
  match literalValue with
  | none => pure path
  | some item =>
    match path with
    | none => DepM.panicNow "runtime error: invalid memory address or nil pointer dereference"
    | some parent => do
      let pathItem ← allocNode item KeyNode
      appendChild parent pathItem
      pure (some pathItem)

/-- Modelled from the spec: the type rule for one binary operator, applied
once both operand types are known to carry the same type id.  The source
revision holding the resolver's `BinaryOperation` case is not among the
repository files (only its tests are); §4.5's operator table is embedded
verbatim: `+` accepts Int, Float and String and returns the operand type;
`-`, `*`, `/`, `%`, `^` accept Int and Float; `==`/`!=` accept the four
scalar types and return Bool; the quantity comparisons accept Int, Float
and String and return Bool; `&&`/`||` accept Bool. -/
def binaryOperationResultType (op : MathOperationType) (t : SchemaT) :
    GoRes String SchemaT :=
  match op with
  | .add =>
    match t with
    | .sInt | .sFloat | .sString => .ok t
    | _ => .err ("incompatible type " ++ t.typeID ++ " for operator " ++ op.str)
  | .subtract | .multiply | .divide | .modulus | .power =>
    match t with
    | .sInt | .sFloat => .ok t
    | _ => .err ("incompatible type " ++ t.typeID ++ " for operator " ++ op.str)
  | .equalTo | .notEqualTo =>
    match t with
    | .sInt | .sFloat | .sString | .sBool => .ok .sBool
    | _ => .err ("incompatible type " ++ t.typeID ++ " for operator " ++ op.str)
  | .greaterThan | .lessThan | .greaterThanEqualTo | .lessThanEqualTo =>
    match t with
    | .sInt | .sFloat | .sString => .ok .sBool
    | .sBool => .err "attempted quantity inequality comparison operation on a boolean"
    | _ => .err ("incompatible type " ++ t.typeID ++ " for operator " ++ op.str)
  | .and | .or =>
    match t with
    | .sBool => .ok .sBool
    | _ => .err ("non-boolean type " ++ t.typeID ++ " used with logical operator " ++ op.str)
  | .not | .invalidOp =>
    .err ("unsupported binary operator " ++ op.str)

/-- Modelled from the spec: the type rule for a unary operator: `-` accepts
Int and Float and returns the operand type; `!` accepts Bool. -/
def unaryOperationResultType (op : MathOperationType) (t : SchemaT) :
    GoRes String SchemaT :=
  match op with
  | .subtract =>
    match t with
    | .sInt | .sFloat => .ok t
    | _ => .err ("cannot negate non-numeric type " ++ t.typeID)
  | .not =>
    match t with
    | .sBool => .ok .sBool
    | _ => .err ("cannot complement non-boolean type " ++ t.typeID)
  | _ => .err ("unsupported unary operator " ++ op.str)

def liftGo {α : Type} (r : GoRes String α) : DepM α := fun a =>
  match r with
  | .ok v => .ok (v, a)
  | .err e => .err e
  | .panic m => .panic m

/-- `bracketMapDependencies`: the key subexpression's type must equal the
map's key type; the result is the map's value type, chained at the left's
path. -/
def bracketMapDependencies (leftResult : DependencyResult)
    (keys values : SchemaT) (keyType : SchemaT) : GoRes String DependencyResult :=
  if keyType.typeID ≠ keys.typeID then
    .err ("subexpression evaluates to type " ++ keyType.typeID ++
      " for a map, " ++ keys.typeID ++ " expected")
  else
    .ok { resolvedType := values, chainablePath := leftResult.chainablePath,
          rootPathResult := leftResult.rootPathResult, completedPaths := [] }

/-- `bracketListDependencies`: a list key subexpression must be an
integer. -/
def bracketListDependencies (leftResult : DependencyResult)
    (items : SchemaT) (keyType : SchemaT) : GoRes String DependencyResult :=
  if keyType.typeID ≠ SchemaT.sInt.typeID then
    .err ("subexpressions resulted in a " ++ keyType.typeID ++
      " type for a list key, integer expected")
  else
    .ok { resolvedType := items, chainablePath := leftResult.chainablePath,
          rootPathResult := leftResult.rootPathResult, completedPaths := [] }

/-- The type switch of `bracketAccessorDependencies`.  When the map or list
helper returns its error the Go caller stores a nil result next to it and
then writes through the nil pointer, so the observable behaviour of those
error paths is a panic, not the returned error. -/
def bracketSwitch (leftResult : DependencyResult) (keyType : SchemaT)
    (currentType : SchemaT) : DepM DependencyResult := fun a =>
  match leftResult.resolvedType with
  | .sMap keys values =>
    (match bracketMapDependencies leftResult keys values keyType with
     | .ok r => .ok (r, a)
     | .err _ => .panic "runtime error: invalid memory address or nil pointer dereference"
     | .panic m => .panic m)
  | .sList items =>
    (match bracketListDependencies leftResult items keyType with
     | .ok r => .ok (r, a)
     | .err _ => .panic "runtime error: invalid memory address or nil pointer dereference"
     | .panic m => .panic m)
  | .sAny =>
    .ok ({ resolvedType := .sAny, chainablePath := leftResult.chainablePath,
           rootPathResult := leftResult.rootPathResult, completedPaths := [] }, a)
  | .sScope _ _ | .sObject _ _ | .sRef _ _ =>
    .err "bracket ([]) access is not supported for object/scope/ref types; please use dot notation"
  | _ =>
    .err ("bracket ([]) subexpressions are only supported on map, list, and any types; " ++
      currentType.typeID ++ " given")

mutual

/-- `dependencyContext.dependencies`: one walk computing the resolved type,
extending the path, and accumulating completed dependency subtrees.  The
dispatch follows the revision the test suite exercises: the latest
`expression_dependencies` file carries the dot/bracket/identifier/
string/int/function cases embedded here; its float/bool-literal and
binary/unary-operation cases are not among the repository files and are
modelled from the spec (§4.5): literals resolve to their scalar schema
type, and operations resolve both operands as re-rooted subtrees, require
equal operand type ids, and apply the operator table
(`binaryOperationResultType`, `unaryOperationResultType`). -/
def dependencies (c : DependencyContext) :
    Nat → Node → SchemaT → Option Nat → DepM DependencyResult
  | 0, _, _, _ => DepM.panicNow "out of fuel"
  | fuel + 1, .dotNotation l r, currentType, path => do
    let leftResult ← dependencies c fuel l currentType path
    let rightResult ← dependencies c fuel r leftResult.resolvedType leftResult.chainablePath
    pure { resolvedType := rightResult.resolvedType,
           chainablePath := rightResult.chainablePath,
           rootPathResult := leftResult.rootPathResult,
           completedPaths := rightResult.completedPaths ++ leftResult.completedPaths }
  | fuel + 1, .bracketAccessor l r, currentType, path => do
    let leftResult ← dependencies c fuel l currentType path
    let keyResult ← rootDependencies c fuel r
    let mergedDependencies := leftResult.completedPaths ++ keyResult.completedPaths
    let overallResult ← bracketSwitch leftResult keyResult.resolvedType currentType
    let chainable ← addKeyNode r overallResult.chainablePath
    pure { overallResult with
           chainablePath := chainable,
           completedPaths := overallResult.completedPaths ++ mergedDependencies }
  | _ + 1, .ident name, currentType, path => identifierDependencies c name currentType path
  | _ + 1, .stringLit _, _, _ =>
    pure { resolvedType := .sString, chainablePath := none,
           rootPathResult := none, completedPaths := [] }
  | _ + 1, .intLit _, _, _ =>
    pure { resolvedType := .sInt, chainablePath := none,
           rootPathResult := none, completedPaths := [] }
  | _ + 1, .floatLit _, _, _ =>
    pure { resolvedType := .sFloat, chainablePath := none,
           rootPathResult := none, completedPaths := [] }
  | _ + 1, .boolLit _, _, _ =>
    pure { resolvedType := .sBool, chainablePath := none,
           rootPathResult := none, completedPaths := [] }
  | fuel + 1, .functionCall funcID args, _, _ =>
    match c.functions.find? (fun e => e.1 == funcID) with
    | none => DepM.fail ("could not find function " ++ funcID)
    | some e =>
      if args.length ≠ e.2.params.length then
        DepM.fail ("invalid call to function " ++ funcID ++ ". Expected " ++
          toString e.2.params.length ++ " args, got " ++ toString args.length ++
          " args. Function schema: " ++ e.2.printable)
      else do
        let (argTypes, argDependencies) ← functionArgsDependencies c e.2 fuel 0 e.2.params args
        let outputType ← liftGo (match e.2.output argTypes with
          | .ok t => .ok t
          | .err m => .err ("error while getting return type (" ++ m ++ ")")
          | .panic m => .panic m)
        let functionRootPath ← allocNode (.str funcID) FunctionNode
        pure { resolvedType := outputType, chainablePath := some functionRootPath,
               rootPathResult := some functionRootPath,
               completedPaths := argDependencies }
  | fuel + 1, .binaryOperation l op r, _, _ => do
    let leftResult ← rootDependencies c fuel l
    let rightResult ← rootDependencies c fuel r
    if leftResult.resolvedType.typeID ≠ rightResult.resolvedType.typeID then
      DepM.fail ("left and right operand types do not match for binary operation " ++
        op.str ++ ": " ++ leftResult.resolvedType.typeID ++ " and " ++
        rightResult.resolvedType.typeID)
    else do
      let t ← liftGo (binaryOperationResultType op leftResult.resolvedType)
      pure { resolvedType := t, chainablePath := none, rootPathResult := none,
             completedPaths := leftResult.completedPaths ++ rightResult.completedPaths }
  | fuel + 1, .unaryOperation op r, _, _ => do
    let res ← rootDependencies c fuel r
    let t ← liftGo (unaryOperationResultType op res.resolvedType)
    pure { resolvedType := t, chainablePath := none, rootPathResult := none,
           completedPaths := res.completedPaths }

/-- The argument loop of `functionDependencies`: resolve each argument as a
re-rooted subtree, validate compatibility with the declared parameter type
and collect types and completed dependency trees in order. -/
def functionArgsDependencies (c : DependencyContext) (fs : FunSchema) :
    Nat → Nat → List SchemaT → List Node → DepM (List SchemaT × List Nat)
  | 0, _, _, _ => DepM.panicNow "out of fuel"
  | _ + 1, _, _, [] => pure ([], [])
  | fuel + 1, i, params, arg :: rest => do
    let argResult ← rootDependencies c fuel arg
    let paramType := params.headD .sAny
    match c.validateCompat paramType argResult.resolvedType with
    | some e =>
      DepM.fail ("error while validating arg/param type compatibility for function " ++
        fs.id ++ " at 0-index " ++ toString i ++ " (" ++ e ++ "). Function schema: " ++
        fs.printable)
    | none => do
      let (restTypes, restDeps) ← functionArgsDependencies c fs fuel (i + 1) (params.drop 1) rest
      pure (argResult.resolvedType :: restTypes, argResult.completedPaths ++ restDeps)

/-- `dependencyContext.rootDependencies`: resolve against a fresh copy of
the facade's data-root path node, and attach the root path to the completed
paths when the expression touched data. -/
def rootDependencies (c : DependencyContext) : Nat → Node → DepM DependencyResult
  | 0, _ => DepM.panicNow "out of fuel"
  | fuel + 1, node => do
    let newRoot ← allocNode (.str "$") DataRootNode
    let result ← dependencies c fuel node c.rootType (some newRoot)
    match result.rootPathResult with
    | some r => pure { result with completedPaths := result.completedPaths ++ [r] }
    | none => pure result

end

mutual

/-- Read a `PathTree` value back out of the arena (fuel-driven; by
construction the arena is acyclic, and the facades pass ample fuel). -/
def extractTree (a : Arena) : Nat → Nat → Option PathTree
  | 0, _ => none
  | fuel + 1, id =>
    match a.nodes.get? id with
    | none => none
    | some n =>
      match extractList a fuel n.children with
      | some ts => some (.mk n.pathItem n.nodeType ts)
      | none => none

def extractList (a : Arena) : Nat → List Nat → Option (List PathTree)
  | _, [] => some []
  | 0, _ :: _ => none
  | fuel + 1, id :: rest => do
    let t ← extractTree a fuel id
    let ts ← extractList a fuel rest
    some (t :: ts)

end

/-- Enough extraction fuel for any tree the arena can hold: every recursive
step consumes one fuel, and along any descent each arena node accounts for
at most one tree step, one list step and one sibling step. -/
def arenaFuel (a : Arena) : Nat := 3 * a.nodes.size + 3

/-- The per-tree unpack loop of `expression.Dependencies`, before
deduplication: each completed dependency tree is unpacked and the results
concatenated in encounter order. -/
def unpackAll (a : Arena) (req : UnpackRequirements) :
    List Nat → GoRes String (List Path)
  | [] => .ok []
  | id :: rest =>
    match extractTree a (arenaFuel a) id with
    | none => .panic "malformed path arena"
    | some t => do
      let ps ← PathTree.unpack req t
      let restPs ← unpackAll a req rest
      .ok (ps ++ restPs)

/-- `expression.Type`: resolve from the root and keep the resolved type.
The fuel bounds the recursion of `dependencies`; the Go recursion is
bounded by the AST, so every theorem below supplies ample fuel. -/
def expressionType (c : DependencyContext) (fuel : Nat) (node : Node) :
    GoRes String SchemaT :=
  match rootDependencies c fuel node ⟨#[]⟩ with
  | .ok (res, _) => .ok res.resolvedType
  | .err e => .err e
  | .panic m => .panic m

/-- The resolution and unpacking stages of `expression.Dependencies`, up to
but not including deduplication. -/
def dependenciesUnpacked (c : DependencyContext) (fuel : Nat) (node : Node)
    (req : UnpackRequirements) : GoRes String (List Path) :=
  match rootDependencies c fuel node ⟨#[]⟩ with
  | .ok (res, arena) => unpackAll arena req res.completedPaths
  | .err e => .err e
  | .panic m => .panic m

/-- `expression.Dependencies`: unpack every completed dependency tree and
keep only the first occurrence of each path string, in discovery order. -/
def expressionDependencies (c : DependencyContext) (fuel : Nat) (node : Node)
    (req : UnpackRequirements) : GoRes String (List Path) :=
  match dependenciesUnpacked c fuel node req with
  | .ok l => .ok (dedupPaths l)
  | .err e => .err e
  | .panic m => .panic m

/-! ## Claim theorems -/

/-- A token as the tokenizer classifies the given text. -/
def tokOf (v : String) : TokenValue := ⟨v, classifyToken v⟩

/-- C1. The print round-trip claim asserts that for every expression that
parses, the printed form re-parses and re-prints identically — in
particular for expressions containing the division operator.  The code
breaks this at division: `5 / 5` parses to a division node whose printable
form is `(5) ÷ (5)`, but the division sign matches no pattern of
`tokenPatterns` (only `/` does), so tokenizing the printed form yields an
`UnknownToken` and an invalid-token error, and the re-parse cannot
succeed. -/
theorem c1_division_print_breaks_roundtrip :
    parseExpression 99 (["5", "/", "5"].map tokOf) =
      .ok (.binaryOperation (.intLit 5) .divide (.intLit 5)) ∧
    Node.str (.binaryOperation (.intLit 5) .divide (.intLit 5)) = "(5) ÷ (5)" ∧
    MathOperationType.str .divide = "÷" ∧
    classifyToken "÷" = .unknownToken ∧
    getNextClassified "÷" = .err "invalid token: ÷" :=
  ⟨rfl, rfl, rfl, rfl, rfl⟩

/-- C5. The grammar production documented in the parser
(`negation_expression ::= ["-"] value_or_access_expression`) makes unary
minus bind tighter than addition, so `-a + b` should parse as
`Add(Neg(a), b)`.  The implementation of `parseLeftUnaryExpression` instead
hands the whole remaining root expression to the unary operator: `-1 + 2`
parses as `Neg(Add(1, 2))`, not as `Add(Neg(1), 2)`. -/
theorem c5_unary_minus_consumes_root_expression :
    parseExpression 99 (["-", "1", "+", "2"].map tokOf) =
      .ok (.unaryOperation .subtract (.binaryOperation (.intLit 1) .add (.intLit 2))) ∧
    Node.unaryOperation .subtract (.binaryOperation (.intLit 1) .add (.intLit 2)) ≠
      Node.binaryOperation (.unaryOperation .subtract (.intLit 1)) .add (.intLit 2) :=
  ⟨rfl, by simp⟩

/-- C6. The parser builds precedence-correct, left-leaning trees:
`1 - 2 - 3` parses to `Sub(Sub(1,2),3)`, and
`2 * 3 + 4 > 2 % 5 || x && !true` parses to
`Or(Gt(Add(Mul(2,3),4), Mod(2,5)), And(Id("x"), Not(true)))`. -/
theorem c6_precedence_and_left_associativity :
    parseExpression 99 (["1", "-", "2", "-", "3"].map tokOf) =
      .ok (.binaryOperation
        (.binaryOperation (.intLit 1) .subtract (.intLit 2)) .subtract (.intLit 3)) ∧
    parseExpression 99
        (["2", "*", "3", "+", "4", ">", "2", "%", "5", "|", "|",
          "x", "&", "&", "!", "true"].map tokOf) =
      .ok (.binaryOperation
        (.binaryOperation
          (.binaryOperation
            (.binaryOperation (.intLit 2) .multiply (.intLit 3)) .add (.intLit 4))
          .greaterThan
          (.binaryOperation (.intLit 2) .modulus (.intLit 5)))
        .or
        (.binaryOperation (.ident "x") .and (.unaryOperation .not (.boolLit true)))) :=
  ⟨rfl, rfl⟩

/-- The bracket evaluation rule as claim C2 words it: the key subexpression
re-rooted (evaluated with the root data as its subject), the resulting key
applied to the left operand's value. -/
def evaluateBracketAccessorRerooted (c : EvaluateContext) (l r : Node)
    (data : Value) : GoRes String Value := do
  let leftResult ← evaluate c l data
  let mapKey ← evaluate c r c.rootData
  evaluateMapAccess leftResult mapKey

/-- Data separating the two bracket-key subject rules: the root and the
value of its `foo` property both carry a `bar` key, but with different
values (`"x"` inside `foo`, `"y"` at the root), and `foo` maps `x` to 42
and `y` to 99. -/
def c2Data : Value :=
  .vMap [(.vStr "foo", .vMap [(.vStr "bar", .vStr "x"), (.vStr "x", .vInt 42),
                              (.vStr "y", .vInt 99)]),
         (.vStr "bar", .vStr "y")]

/-- The AST of `$.foo[bar]`. -/
def c2Ast : Node :=
  .bracketAccessor (.dotNotation (.ident "$") (.ident "foo")) (.ident "bar")

/-- C2, counterexample. The claim says the bracket key subexpression is
evaluated with the root data as its subject.  On `$.foo[bar]` with the
data above, the code evaluates the bare key identifier `bar` against the
left operand's value (yielding `"x"`, then 42); the claimed re-rooted rule
would yield `"y"`, then 99. -/
theorem c2_counterexample_key_not_rerooted :
    evaluate ⟨c2Data, []⟩ c2Ast c2Data = .ok (.vInt 42) ∧
    evaluateBracketAccessorRerooted ⟨c2Data, []⟩
      (.dotNotation (.ident "$") (.ident "foo")) (.ident "bar") c2Data =
      .ok (.vInt 99) ∧
    (GoRes.ok (Value.vInt 42) : GoRes String Value) ≠ .ok (.vInt 99) :=
  ⟨rfl, rfl, by simp⟩

/-- C2, amended. At evaluation, the bracket key subexpression is evaluated
with the LEFT operand's result as its subject (not re-rooted), and the
resulting key is applied to the left operand's value via the
mapping/sequence lookup rule. -/
theorem c2_bracket_key_uses_left_subject (c : EvaluateContext) (l r : Node)
    (data : Value) :
    evaluate c (.bracketAccessor l r) data =
      (evaluate c l data).bind (fun leftResult =>
        (evaluate c r leftResult).bind (fun mapKey =>
          evaluateMapAccess leftResult mapKey)) :=
  rfl

/-- C9. The operands of every binary operation, and the operand of every
unary operation, are evaluated against the root data rather than the
current subject.  In particular, inside a bracket key, an identifier that
is an operand of a binary operation is looked up on the root data (the
fourth conjunct finds `bar = "y"` at the root, giving 99), whereas the same
identifier alone as the bracket key is looked up on the left operand's
value (the third conjunct finds `bar = "x"` inside `foo`, giving 42). -/
theorem c9_operation_operands_use_root_data :
    (∀ (c : EvaluateContext) (l : Node) (op : MathOperationType) (r : Node)
        (data : Value),
      evaluate c (.binaryOperation l op r) data =
        (evaluate c l c.rootData).bind (fun leftEval =>
          (evaluate c r c.rootData).bind (fun rightEval =>
            binaryOperationDispatch leftEval rightEval op))) ∧
    (∀ (c : EvaluateContext) (op : MathOperationType) (r : Node) (data : Value),
      evaluate c (.unaryOperation op r) data =
        (evaluate c r c.rootData).bind (fun rightEval =>
          unaryOperationDispatch op rightEval)) ∧
    evaluate ⟨c2Data, []⟩ c2Ast c2Data = .ok (.vInt 42) ∧
    evaluate ⟨c2Data, []⟩
      (.bracketAccessor (.dotNotation (.ident "$") (.ident "foo"))
        (.binaryOperation (.ident "bar") .add (.stringLit ""))) c2Data =
      .ok (.vInt 99) :=
  ⟨fun _ _ _ _ _ => rfl, fun _ _ _ _ => rfl, rfl, rfl⟩

/-- C4. Sequence indexing at evaluation: `$[0]` on `["Hello"]` yields
`"Hello"`; `$[10]` on `["a"]` yields the exact out-of-range error; `$[-1]`
on `["a"]` yields an error (not a panic); an index succeeds exactly when it
is non-negative and strictly below the length; any non-int64 key is an
error. -/
theorem c4_sequence_index_evaluation :
    (parseExpression 99 (["$", "[", "0", "]"].map tokOf) =
        .ok (.bracketAccessor (.ident "$") (.intLit 0)) ∧
      evaluate ⟨.vList [.vStr "Hello"], []⟩
        (.bracketAccessor (.ident "$") (.intLit 0)) (.vList [.vStr "Hello"]) =
        .ok (.vStr "Hello")) ∧
    (parseExpression 99 (["$", "[", "10", "]"].map tokOf) =
        .ok (.bracketAccessor (.ident "$") (.intLit 10)) ∧
      evaluate ⟨.vList [.vStr "a"], []⟩
        (.bracketAccessor (.ident "$") (.intLit 10)) (.vList [.vStr "a"]) =
        .err "index 10 is larger than the list items length (1)") ∧
    (parseExpression 99 (["$", "[", "-", "1", "]"].map tokOf) =
        .ok (.bracketAccessor (.ident "$") (.unaryOperation .subtract (.intLit 1))) ∧
      evaluate ⟨.vList [.vStr "a"], []⟩
        (.bracketAccessor (.ident "$") (.unaryOperation .subtract (.intLit 1)))
        (.vList [.vStr "a"]) =
        .err "invalid index (-1); must be non-negative integer") ∧
    (∀ (items : List Value) (i : Int),
      (∃ v, evaluateMapAccess (.vList items) (.vInt i) = .ok v) ↔
        0 ≤ i ∧ i < items.length) ∧
    (∀ (items : List Value) (key : Value), (∀ i : Int, key ≠ .vInt i) →
      ∃ msg, evaluateMapAccess (.vList items) key = .err msg) := by
  refine ⟨⟨rfl, rfl⟩, ⟨rfl, rfl⟩, ⟨rfl, rfl⟩, ?_, ?_⟩
  · intro items i
    simp only [evaluateMapAccess]
    split_ifs with hlen hneg
    · constructor
      · rintro ⟨v, hv⟩
        cases hv
      · rintro ⟨h0, hlt⟩
        omega
    · constructor
      · rintro ⟨v, hv⟩
        cases hv
      · rintro ⟨h0, hlt⟩
        omega
    · have hi : i.toNat < items.length := by omega
      rw [List.get?_eq_get hi]
      exact ⟨fun _ => ⟨by omega, by omega⟩, fun _ => ⟨_, rfl⟩⟩
  · intro items key hkey
    cases key with
    | vInt i => exact absurd rfl (hkey i)
    | vNull => exact ⟨_, rfl⟩
    | vFloat f => exact ⟨_, rfl⟩
    | vStr s => exact ⟨_, rfl⟩
    | vBool b => exact ⟨_, rfl⟩
    | vList l => exact ⟨_, rfl⟩
    | vMap m => exact ⟨_, rfl⟩

/-- C4, witness: the characterisations applied at concrete inputs — index
0 succeeds on a one-element list, and a string key on a list is an
error. -/
theorem c4_sequence_index_evaluation_witness :
    (∃ v, evaluateMapAccess (.vList [.vStr "a"]) (.vInt 0) = .ok v) ∧
    (∃ msg, evaluateMapAccess (.vList [.vStr "a"]) (.vStr "k") = .err msg) := by
  constructor
  · exact (c4_sequence_index_evaluation.2.2.2.1 [.vStr "a"] 0).mpr (by norm_num)
  · exact c4_sequence_index_evaluation.2.2.2.2 [.vStr "a"] (.vStr "k")
      (fun i h => by cases h)

/-- A resolution context with no functions and a trivial root schema; the
root type is never consulted for literal-only expressions. -/
def c3Ctx : DependencyContext := ⟨.sObject "root" [], [], fun _ _ => none⟩

/-- C3. Type resolution of a binary operation checks the operands against
the operator table: `+` accepts Int, Float and String operand pairs and
returns the operand type, so `5 + 5` resolves to Int; two different
operand types (`5 + 5.0`) are an error naming both types. -/
theorem c3_binary_operation_typing :
    parseExpression 99 (["5", "+", "5"].map tokOf) =
      .ok (.binaryOperation (.intLit 5) .add (.intLit 5)) ∧
    expressionType c3Ctx 99 (.binaryOperation (.intLit 5) .add (.intLit 5)) =
      .ok .sInt ∧
    binaryOperationResultType .add .sInt = .ok .sInt ∧
    binaryOperationResultType .add .sFloat = .ok .sFloat ∧
    binaryOperationResultType .add .sString = .ok .sString ∧
    parseExpression 99 (["5", "+", "5.0"].map tokOf) =
      .ok (.binaryOperation (.intLit 5) .add (.floatLit 5)) ∧
    expressionType c3Ctx 99 (.binaryOperation (.intLit 5) .add (.floatLit 5)) =
      .err "left and right operand types do not match for binary operation +: integer and float" :=
  ⟨rfl, rfl, rfl, rfl, rfl, rfl, rfl⟩

/-- The unescaping rule exactly as claim C10 words it: the sequences
`\\`, `\t`, `\n`, `\r`, `\b` and `\"` become their characters; any other
character — in particular a backslash starting any other sequence — is
copied verbatim. -/
def specUnescape : List Char → List Char
  | '\\' :: '\\' :: rest => '\\' :: specUnescape rest
  | '\\' :: 't' :: rest => '\t' :: specUnescape rest
  | '\\' :: 'n' :: rest => '\n' :: specUnescape rest
  | '\\' :: 'r' :: rest => '\r' :: specUnescape rest
  | '\\' :: 'b' :: rest => '\x08' :: specUnescape rest
  | '\\' :: '"' :: rest => '"' :: specUnescape rest
  | c :: rest => c :: specUnescape rest
  | [] => []

/-- The source's replacer (first match in argument order, left to right,
one character copied on no match) agrees with the claim's description of
the six escape sequences on every input. -/
theorem goReplace_escape_eq_spec (l : List Char) :
    goReplace escapePairs l = specUnescape l := by
  induction l using specUnescape.induct with
  | case1 rest ih =>
    simp [goReplace, specUnescape, escapePairs, List.isPrefixOf, List.find?]; exact ih
  | case2 rest ih =>
    simp [goReplace, specUnescape, escapePairs, List.isPrefixOf, List.find?]; exact ih
  | case3 rest ih =>
    simp [goReplace, specUnescape, escapePairs, List.isPrefixOf, List.find?]; exact ih
  | case4 rest ih =>
    simp [goReplace, specUnescape, escapePairs, List.isPrefixOf, List.find?]; exact ih
  | case5 rest ih =>
    simp [goReplace, specUnescape, escapePairs, List.isPrefixOf, List.find?]; exact ih
  | case6 rest ih =>
    simp [goReplace, specUnescape, escapePairs, List.isPrefixOf, List.find?]; exact ih
  | case7 c rest h1 h2 h3 h4 h5 h6 ih =>
    rcases rest with _ | ⟨d, rest2⟩
    · by_cases hc : c = '\\' <;>
        simp [goReplace, specUnescape, escapePairs, List.isPrefixOf, List.find?, hc]
    · by_cases hc : c = '\\'
      · subst hc
        have hd1 : ¬ d = '\\' := fun h => h1 rest2 rfl (by rw [h])
        have hd2 : ¬ d = 't' := fun h => h2 rest2 rfl (by rw [h])
        have hd3 : ¬ d = 'n' := fun h => h3 rest2 rfl (by rw [h])
        have hd4 : ¬ d = 'r' := fun h => h4 rest2 rfl (by rw [h])
        have hd5 : ¬ d = 'b' := fun h => h5 rest2 rfl (by rw [h])
        have hd6 : ¬ d = '"' := fun h => h6 rest2 rfl (by rw [h])
        have hb1 : ('\\' == d) = false := beq_eq_false_iff_ne.mpr (fun h => hd1 h.symm)
        have hb2 : ('t' == d) = false := beq_eq_false_iff_ne.mpr (fun h => hd2 h.symm)
        have hb3 : ('n' == d) = false := beq_eq_false_iff_ne.mpr (fun h => hd3 h.symm)
        have hb4 : ('r' == d) = false := beq_eq_false_iff_ne.mpr (fun h => hd4 h.symm)
        have hb5 : ('b' == d) = false := beq_eq_false_iff_ne.mpr (fun h => hd5 h.symm)
        have hb6 : ('"' == d) = false := beq_eq_false_iff_ne.mpr (fun h => hd6 h.symm)
        conv_lhs => rw [goReplace]
        simp only [escapePairs, List.find?, List.isPrefixOf, hb1, hb2, hb3, hb4, hb5, hb6,
          Bool.false_and, Bool.and_false, Bool.true_and, Bool.and_true, beq_self_eq_true]
        have hspec : specUnescape ('\\' :: d :: rest2) = '\\' :: specUnescape (d :: rest2) := by
          simp [specUnescape, hd1, hd2, hd3, hd4, hd5, hd6]
        rw [hspec]
        exact congrArg _ ih
      · have hb : (c == '\\') = false := beq_eq_false_iff_ne.mpr hc
        have hb' : ('\\' == c) = false := beq_eq_false_iff_ne.mpr (fun h => hc h.symm)
        conv_lhs => rw [goReplace]
        simp only [escapePairs, List.find?, List.isPrefixOf, hb, hb', Bool.false_and]
        have hspec : specUnescape (c :: d :: rest2) = c :: specUnescape (d :: rest2) := by
          simp [specUnescape, hc]
        rw [hspec]
        exact congrArg _ ih
  | case8 => simp [goReplace, specUnescape]

/-- C10. Parsing a string literal token strips the surrounding quotes and
replaces exactly the six escape sequences `\\`, `\t`, `\n`, `\r`, `\b`,
`\"`; every other backslash sequence (for example a backslash before an
apostrophe, or a unicode escape) is preserved verbatim. -/
theorem c10_string_literal_escapes :
    (∀ inner : List Char,
      parseStringLiteralValue (String.mk ('"' :: inner ++ ['"'])) =
        String.mk (specUnescape inner)) ∧
    parseStringLiteralValue "\"\\'\"" = "\\'" ∧
    parseStringLiteralValue "\"\\u0041\"" = "\\u0041" ∧
    parseStringLiteralValue "\"a\\tb\"" = "a\tb" ∧
    parseStringLiteralValue "\"\\\\x\\n\\r\\b\\\"\"" = "\\x\n\r\x08\"" := by
  have huniv : ∀ inner : List Char,
      parseStringLiteralValue (String.mk ('"' :: inner ++ ['"'])) =
        String.mk (specUnescape inner) := by
    intro inner
    have hstrip : ((String.mk ('"' :: inner ++ ['"'])).toList.drop 1).dropLast = inner := by
      simp [String.toList]
    simp [parseStringLiteralValue, hstrip, goReplace_escape_eq_spec]
  exact ⟨huniv, huniv ['\\', '\''], huniv ['\\', 'u', '0', '0', '4', '1'],
    huniv ['a', '\\', 't', 'b'],
    huniv ['\\', '\\', 'x', '\\', 'n', '\\', 'r', '\\', 'b', '\\', '"']⟩

/-- One step of the first-appearance filter, as claim C7 words it: keep
the path unless an earlier kept path has the same string form. -/
def firstSeenStep (acc : List Path) (p : Path) : List Path :=
  if (acc.map Path.string).contains p.string then acc else acc ++ [p]

/-- The first-appearance filter over a whole unpacked path list. -/
def specFirstSeen (l : List Path) : List Path := l.foldl firstSeenStep []

/-- The deduplication loop of `expression.Dependencies` computes the
first-appearance filter, for any seen-set/accumulator pair that agree. -/
theorem dedupLoop_eq_foldl (l : List Path) :
    ∀ (seen : List String) (acc : List Path),
      (∀ s, seen.contains s = (acc.map Path.string).contains s) →
      dedupLoop seen acc l = l.foldl firstSeenStep acc := by
  induction l with
  | nil => intro seen acc _; rfl
  | cons d rest ih =>
    intro seen acc h
    simp only [dedupLoop, List.foldl, firstSeenStep]
    rw [h d.string]
    by_cases hc : ((acc.map Path.string).contains d.string) = true
    · rw [if_pos hc, if_pos hc]
      exact ih seen acc h
    · rw [if_neg hc, if_neg hc]
      apply ih
      intro s
      show (d.string :: seen).contains s = (((acc ++ [d]).map Path.string).contains s)
      simp only [List.contains_cons, List.map_append, h s, List.map_cons, List.map_nil]
      cases hsd : (s == d.string) with
      | false =>
        simp [List.contains_cons, hsd]
        exact fun heq => absurd heq (ne_of_beq_false hsd)
      | true =>
        simp [List.contains_cons, hsd]
        exact Or.inr (eq_of_beq hsd)

/-- The first-appearance filter never keeps two paths with the same
string form. -/
theorem foldl_firstSeenStep_pairwise (l : List Path) :
    ∀ (acc : List Path), acc.Pairwise (fun a b => Path.string a ≠ Path.string b) →
    (l.foldl firstSeenStep acc).Pairwise (fun a b => Path.string a ≠ Path.string b) := by
  induction l with
  | nil => intro acc hacc; exact hacc
  | cons d rest ih =>
    intro acc hacc
    simp only [List.foldl]
    apply ih
    unfold firstSeenStep
    by_cases hc : ((acc.map Path.string).contains d.string) = true
    · rw [if_pos hc]; exact hacc
    · rw [if_neg hc]
      rw [List.pairwise_append]
      refine ⟨hacc, List.pairwise_singleton _ _, ?_⟩
      intro a ha b hb hcontra
      rcases List.mem_singleton.mp hb with rfl
      apply hc
      exact List.elem_eq_true_of_mem (List.mem_map.mpr ⟨a, ha, hcontra.symm ▸ rfl⟩)

/-- C7. Whenever `Dependencies` succeeds, the returned path list contains
no two paths with identical string form, and it is exactly the
first-appearance filter of the concatenated unpacked dependency trees, in
discovery order. -/
theorem c7_dependencies_dedup (c : DependencyContext) (fuel : Nat) (node : Node)
    (req : UnpackRequirements) (out : List Path)
    (h : expressionDependencies c fuel node req = .ok out) :
    out.Pairwise (fun a b => Path.string a ≠ Path.string b) ∧
    ∃ l, dependenciesUnpacked c fuel node req = .ok l ∧
      out = dedupPaths l ∧ out = specFirstSeen l := by
  unfold expressionDependencies at h
  cases hu : dependenciesUnpacked c fuel node req with
  | ok l =>
    rw [hu] at h
    cases h
    have hd : dedupPaths l = specFirstSeen l := dedupLoop_eq_foldl l [] [] (fun s => rfl)
    refine ⟨?_, l, rfl, rfl, hd⟩
    rw [hd]
    exact foldl_firstSeenStep_pairwise l [] List.Pairwise.nil
  | err e => rw [hu] at h; cases h
  | panic m => rw [hu] at h; cases h

/-- The schema, context, AST (`$.foo.bar`) and requirements used to
instantiate C7's theorem. -/
def c7Schema : SchemaT := .sScope "root" [("foo", .sObject "foo" [("bar", .sString)])]
def c7Ctx : DependencyContext := ⟨c7Schema, [], fun _ _ => none⟩
def c7Ast : Node := .dotNotation (.dotNotation (.ident "$") (.ident "foo")) (.ident "bar")
def c7Req : UnpackRequirements := ⟨false, false, false, true⟩

/-- C7, witness: the theorem applied to `$.foo.bar` against a schema with
`foo: object{bar: string}`, whose dependency list is `["$.foo.bar"]`. -/
theorem c7_witness :
    ([[PathItem.str "$", PathItem.str "foo", PathItem.str "bar"]] : List Path).Pairwise
        (fun a b => Path.string a ≠ Path.string b) ∧
    ∃ l, dependenciesUnpacked c7Ctx 99 c7Ast c7Req = .ok l ∧
      [[PathItem.str "$", PathItem.str "foo", PathItem.str "bar"]] = dedupPaths l ∧
      [[PathItem.str "$", PathItem.str "foo", PathItem.str "bar"]] = specFirstSeen l :=
  c7_dependencies_dedup c7Ctx 99 c7Ast c7Req _ rfl

/-- C8. `PathTree.Unpack` obeys the stop/skip/emit policy: a data-root
node emits nothing iff data-root paths are excluded; a function node iff
function-root paths are excluded; a past-terminal node iff unpacking stops
at terminals; access and key nodes never stop; only key nodes are skipped,
and only when keys are not included; a non-stopped, non-skipped node whose
children emit no paths emits the singleton path of its own segment; and an
unrecognised node type panics rather than producing output. -/
theorem c8_unpack_policy :
    (∀ (req : UnpackRequirements) (item : PathItem) (subs : List PathTree),
      PathTree.unpack req (.mk item DataRootNode subs) = .ok [] ↔
        req.excludeDataRootPaths = true) ∧
    (∀ (req : UnpackRequirements) (item : PathItem) (subs : List PathTree),
      PathTree.unpack req (.mk item FunctionNode subs) = .ok [] ↔
        req.excludeFunctionRootPaths = true) ∧
    (∀ (req : UnpackRequirements) (item : PathItem) (subs : List PathTree),
      PathTree.unpack req (.mk item PastTerminalNode subs) = .ok [] ↔
        req.stopAtTerminals = true) ∧
    (∀ req : UnpackRequirements,
      shouldStop req AccessNode = .ok false ∧ shouldStop req KeyNode = .ok false) ∧
    (∀ (req : UnpackRequirements) (nt : String),
      shouldSkip req nt = true ↔ nt = KeyNode ∧ req.includeKeys = false) ∧
    (∀ (req : UnpackRequirements) (item : PathItem) (nt : String)
        (subs : List PathTree) (r : List Path),
      PathTree.unpack req (.mk item nt subs) = .ok r →
      shouldStop req nt = .ok false →
      shouldSkip req nt = false →
      PathTree.unpackSubtrees req item nt subs = .ok [] →
      r = [[item]]) ∧
    (∀ nt : String, nt ≠ DataRootNode → nt ≠ FunctionNode → nt ≠ AccessNode →
      nt ≠ KeyNode → nt ≠ PastTerminalNode →
      ∀ (req : UnpackRequirements) (item : PathItem) (subs : List PathTree),
      PathTree.unpack req (.mk item nt subs) =
        .panic ("node type " ++ nt ++ " missing in shouldStop in path")) := by
  have hstopiff : ∀ (req : UnpackRequirements) (item : PathItem) (nt : String)
      (subs : List PathTree) (b : Bool), shouldStop req nt = .ok b →
      shouldSkip req nt = false →
      (PathTree.unpack req (.mk item nt subs) = .ok [] ↔ b = true) := by
    intro req item nt subs b hstop hskip
    constructor
    · intro h
      cases b with
      | true => rfl
      | false =>
        exfalso
        rw [PathTree.unpack, hstop] at h
        cases hsub : PathTree.unpackSubtrees req item nt subs with
        | ok result =>
          rw [hsub] at h
          cases result with
          | nil => simp [hskip] at h
          | cons p rest => simp [hskip] at h
        | err e => rw [hsub] at h; cases h
        | panic m => rw [hsub] at h; cases h
    · intro hb
      subst hb
      rw [PathTree.unpack, hstop]
  refine ⟨?_, ?_, ?_, ?_, ?_, ?_, ?_⟩
  · intro req item subs
    have := hstopiff req item DataRootNode subs req.excludeDataRootPaths (by rfl) (by rfl)
    simpa using this
  · intro req item subs
    have := hstopiff req item FunctionNode subs req.excludeFunctionRootPaths (by rfl) (by rfl)
    simpa using this
  · intro req item subs
    have := hstopiff req item PastTerminalNode subs req.stopAtTerminals (by rfl) (by rfl)
    simpa using this
  · intro req
    exact ⟨rfl, rfl⟩
  · intro req nt
    constructor
    · intro h
      unfold shouldSkip at h
      rcases Bool.and_eq_true_iff.mp h with ⟨h1, h2⟩
      exact ⟨eq_of_beq (by simpa using h1), by simpa using h2⟩
    · rintro ⟨rfl, h2⟩
      simp [shouldSkip, h2]
  · intro req item nt subs r hunpack hstop hskip hsub
    rw [PathTree.unpack, hstop, hsub] at hunpack
    simp [hskip] at hunpack
    exact hunpack.symm
  · intro nt h1 h2 h3 h4 h5 req item subs
    have h1' : nt ≠ "root" := h1
    have h2' : nt ≠ "function" := h2
    have h3' : nt ≠ "access" := h3
    have h4' : nt ≠ "key" := h4
    have h5' : nt ≠ "past-terminal" := h5
    have hstop : shouldStop req nt =
        .panic ("node type " ++ nt ++ " missing in shouldStop in path") := by
      unfold shouldStop
      simp [DataRootNode, FunctionNode, AccessNode, KeyNode, PastTerminalNode,
        h1', h2', h3', h4', h5']
    rw [PathTree.unpack, hstop]

/-- Requirements instance used by C8's witness. -/
def c8Req : UnpackRequirements := ⟨false, false, false, false⟩

/-- C8, witness: the emission rule applied at a leaf access node, the
panic rule applied at a bogus node type, and the stop rule applied at an
excluded data root. -/
theorem c8_unpack_policy_witness :
    ([[PathItem.str "x"]] : List Path) = [[PathItem.str "x"]] ∧
    PathTree.unpack c8Req (.mk (.str "q") "bogus" []) =
      .panic ("node type " ++ "bogus" ++ " missing in shouldStop in path") ∧
    PathTree.unpack ⟨true, false, false, false⟩ (.mk (.str "$") DataRootNode []) = .ok [] :=
  ⟨c8_unpack_policy.2.2.2.2.2.1 c8Req (.str "x") AccessNode [] [[.str "x"]] rfl rfl rfl rfl,
   c8_unpack_policy.2.2.2.2.2.2 "bogus" (by decide) (by decide) (by decide) (by decide)
     (by decide) c8Req (.str "q") [],
   (c8_unpack_policy.1 ⟨true, false, false, false⟩ (.str "$") []).mpr rfl⟩

end ArcaExpr
